import Mathlib

/-!
Shallow embedding of `src/import/import.py` (thousands-data migration
script) and proofs about its components: the point-value decoder
`cast_point`, the asset key generator `gen_image_key`, the bulk uploader
(`upload_image`, `upload_images_bulk`), the summit grouper/exporter
(`import_summits`), and the mirror writer (`import_users`,
`import_climbs`).

Python floats are modelled as exact rationals snapped to the nearest
IEEE-754 binary64 value (`toFloat64`); Python's `round(x, 4)` is modelled
as exact round-half-to-even at 4 decimal places (`pyRound4`), which is
what CPython computes on the underlying binary value.  Python exceptions
are modelled by the `PyErr` type: `psycopg2.InterfaceError` raised by
`cast_point` (the spec's `MalformedCoordinate`) and the `TypeError`
raised by `Path / None` or `translit(None, ...)`.
-/

namespace ThousandsData

/-- Python exception kinds reachable in the embedded code: the
`InterfaceError("bad point representation ...")` raised by `cast_point`
(called `MalformedCoordinate` in the design document) and the `TypeError`
raised when `None` flows into `Path.__truediv__` or `translit`. -/
inductive PyErr where
  | malformedCoordinate
  | typeError
deriving DecidableEq, Repr

deriving instance DecidableEq for Except

/-- Python `str.strip(chars)`: remove characters belonging to `strip`
from both ends of the string. -/
def pyStrip (strip : List Char) (cs : List Char) : List Char :=
  ((cs.dropWhile (· ∈ strip)).reverse.dropWhile (· ∈ strip)).reverse

/-- Python `str.split(sep)` for a one-character separator: splitting the
empty string yields `[[]]`, and adjacent separators yield empty
components, exactly as in Python. -/
def splitOnChar (sep : Char) : List Char → List (List Char)
  | [] => [[]]
  | c :: cs =>
    let r := splitOnChar sep cs
    if c = sep then [] :: r
    else
      match r with
      | [] => [[c]]
      | g :: gs => (c :: g) :: gs

/-- Digit-string to natural number; `none` when a character is not a
decimal digit or the list is empty. -/
def digitsToNat : List Char → Option ℕ
  | [] => none
  | cs =>
    cs.foldl (fun acc c =>
      match acc with
      | none => none
      | some n => if c.isDigit then some (n * 10 + (c.toNat - '0'.toNat)) else none)
      (some 0)

/-- Unsigned decimal literal: `digits`, `digits.digits`, `digits.` or
`.digits` (at least one digit overall, at most one dot), read as an exact
rational.  Built with `mkRat` on integer arithmetic so that concrete
instances evaluate by kernel reduction. -/
def parseUnsignedDec (cs : List Char) : Option ℚ :=
  match splitOnChar '.' cs with
  | [ip] => (digitsToNat ip).map (fun n => mkRat (Int.ofNat n) 1)
  | [ip, fp] =>
    match ip, fp with
    | [], [] => none
    | [], fp => (digitsToNat fp).map (fun f => mkRat (Int.ofNat f) (10 ^ fp.length))
    | ip, [] => (digitsToNat ip).map (fun n => mkRat (Int.ofNat n) 1)
    | ip, fp =>
      match digitsToNat ip, digitsToNat fp with
      | some n, some f =>
        some (mkRat (Int.ofNat (n * 10 ^ fp.length + f)) (10 ^ fp.length))
      | _, _ => none
  | _ => none

/-- Exact negation of a (normalised) rational, by negating the
numerator. -/
def qneg (q : ℚ) : ℚ :=
  mkRat (-q.num) q.den

/-- Model of Python `float(s)` up to the value parsed: surrounding
whitespace is ignored and an optional sign precedes an unsigned decimal
literal.  (Exponent notation, `inf`/`nan` and digit underscores, which
never occur in the point data this script reads, are outside the modelled
subset and are reported as unparsable.)  Returns the exact decimal value;
the snap to binary64 is applied separately by `toFloat64`. -/
def parseDec (cs : List Char) : Option ℚ :=
  let cs := ((cs.dropWhile Char.isWhitespace).reverse.dropWhile Char.isWhitespace).reverse
  match cs with
  | '+' :: rest => parseUnsignedDec rest
  | '-' :: rest => (parseUnsignedDec rest).map qneg
  | rest => parseUnsignedDec rest

/-- Round-half-to-even to the nearest integer, the rounding used both by
IEEE-754 binary64 conversion and by CPython's `round`, computed on the
numerator and (positive) denominator: `f` is the floor, and twice the
remainder is compared with the denominator to detect the half-way
case. -/
def rhe (q : ℚ) : ℤ :=
  let d : ℤ := (q.den : ℤ)
  let f := Int.ediv q.num d
  let r2 := 2 * Int.emod q.num d
  if r2 < d then f
  else if d < r2 then f + 1
  else if Int.emod f 2 = 0 then f else f + 1

/-- Binary exponent of `q ≥ 1`: the `e` with `2 ^ e ≤ q < 2 ^ (e+1)`,
found by repeated halving (fuel-bounded structural recursion; `q < 2`
is tested as `q.num < 2 * q.den`). -/
def log2ge1 : ℕ → ℚ → ℕ
  | 0, _ => 0
  | fuel + 1, q =>
    if q.num < 2 * (q.den : ℤ) then 0
    else log2ge1 fuel (mkRat q.num (q.den * 2)) + 1

/-- For `0 < q < 1`, the `k` with `2 ^ (-k) ≤ q < 2 ^ (-k+1)` (`1 ≤ q`
is tested as `q.den ≤ q.num`). -/
def log2lt1 : ℕ → ℚ → ℕ
  | 0, _ => 0
  | fuel + 1, q =>
    if ((q.den : ℤ)) ≤ q.num then 0
    else log2lt1 fuel (mkRat (q.num * 2) q.den) + 1

/-- Nearest binary64 value of a positive rational in the normal range:
scale to a 53-bit mantissa and round half to even. -/
def toFloat64Pos (q : ℚ) : ℚ :=
  let e : ℤ :=
    if (q.den : ℤ) ≤ q.num then Int.ofNat (log2ge1 1100 q)
    else -Int.ofNat (log2lt1 1100 q)
  if e ≤ 52 then
    mkRat (rhe (mkRat (q.num * Int.ofNat (2 ^ (52 - e).toNat)) q.den))
      (2 ^ (52 - e).toNat)
  else
    mkRat (rhe (mkRat q.num (q.den * 2 ^ (e - 52).toNat)) * Int.ofNat (2 ^ (e - 52).toNat)) 1

/-- Nearest binary64 value of a rational (the value Python's `float`
holds after parsing a decimal string). -/
def toFloat64 (q : ℚ) : ℚ :=
  if q.num = 0 then 0
  else if 0 < q.num then toFloat64Pos q
  else qneg (toFloat64Pos (qneg q))

/-- Model of Python `float(s)` on a character list: exact decimal parse,
then snap to the nearest binary64 value. -/
def pyFloat (cs : List Char) : Option ℚ :=
  (parseDec cs).map toFloat64

/-- Model of Python `round(x, 4)` on the exact value of a binary64
number: round half to even at 4 decimal places.  (CPython additionally
converts the resulting decimal back to binary64; that conversion is
injective on 4-decimal values in this data's range, so the decimal itself
is kept as the observable value.) -/
def pyRound4 (q : ℚ) : ℚ :=
  mkRat (rhe (mkRat (q.num * 10000) q.den)) 10000

/-- Embeds `cast_point` (src/import/import.py lines 27-35): `None` maps
to `None`; otherwise strip `(` and `)` from both ends, split on `,`, run
every component through `float` and round each to 4 decimal places, then
unpack exactly two components.  Both a failing `float` call and a failing
two-element unpack raise `ValueError`, which the function converts to
`psycopg2.InterfaceError` (`malformedCoordinate`). -/
def cast_point (value : Option String) : Except PyErr (Option (ℚ × ℚ)) :=
  match value with
  | none => .ok none
  | some v =>
    match (splitOnChar ',' (pyStrip ['(', ')'] v.toList)).mapM pyFloat with
    | none => .error .malformedCoordinate
    | some qs =>
      match qs.map pyRound4 with
      | [x, y] => .ok (some (x, y))
      | _ => .error .malformedCoordinate

/-- Specification-side characterisation used by the decoder claims: the
input text splits (after stripping parentheses) into exactly two
components that both parse as floats. -/
def twoFloatComponents (s : String) : Option (ℚ × ℚ) :=
  match (splitOnChar ',' (pyStrip ['(', ')'] s.toList)).mapM pyFloat with
  | some [x, y] => some (x, y)
  | _ => none

/-- Model of the `transliterate` package's Russian-to-Latin (reversed)
per-character mapping, restricted to the alphabetic characters this
dataset exercises; characters outside the table (Latin letters, digits,
punctuation, the hard/soft signs) pass through unchanged, as they do in
the package. -/
def translitChar (c : Char) : String :=
  match c with
  | 'а' => "a" | 'б' => "b" | 'в' => "v" | 'г' => "g" | 'д' => "d"
  | 'е' => "e" | 'ё' => "e" | 'ж' => "zh" | 'з' => "z" | 'и' => "i"
  | 'й' => "i" | 'к' => "k" | 'л' => "l" | 'м' => "m" | 'н' => "n"
  | 'о' => "o" | 'п' => "p" | 'р' => "r" | 'с' => "s" | 'т' => "t"
  | 'у' => "u" | 'ф' => "f" | 'х' => "h" | 'ц' => "ts" | 'ч' => "ch"
  | 'ш' => "sh" | 'щ' => "sch" | 'ы' => "y" | 'э' => "e" | 'ю' => "ju"
  | 'я' => "ja"
  | 'А' => "A" | 'Б' => "B" | 'В' => "V" | 'Г' => "G" | 'Д' => "D"
  | 'Е' => "E" | 'Ё' => "E" | 'Ж' => "Zh" | 'З' => "Z" | 'И' => "I"
  | 'Й' => "I" | 'К' => "K" | 'Л' => "L" | 'М' => "M" | 'Н' => "N"
  | 'О' => "O" | 'П' => "P" | 'Р' => "R" | 'С' => "S" | 'Т' => "T"
  | 'У' => "U" | 'Ф' => "F" | 'Х' => "H" | 'Ц' => "Ts" | 'Ч' => "Ch"
  | 'Ш' => "Sh" | 'Щ' => "Sch" | 'Ы' => "Y" | 'Э' => "E" | 'Ю' => "Ju"
  | 'Я' => "Ja"
  | c => String.singleton c

/-- Model of `translit(s, "ru", reversed=True)`. -/
def translitRu (s : String) : String :=
  String.join (s.toList.map translitChar)

/-- Embeds `gen_image_key` (src/import/import.py lines 74-78):
transliterate the comment, replace spaces with underscores (a
per-character substitution, since both pattern and replacement are one
character), lowercase, and prefix with the summit identifier. -/
def gen_image_key (summit_id comment : String) : String :=
  summit_id ++ "_" ++
    String.mk (((translitRu comment).data.map
      (fun c => if c = ' ' then '_' else c)).map Char.toLower)

/-- One row of the summits LEFT JOIN summits_images query
(src/import/import.py lines 95-103): eight summit columns followed by
the three nullable image columns.  `coordinates` is the value produced
by the registered `cast_point` type caster, hence an optional pair. -/
structure Row where
  id : String
  ridge_id : String
  name : String
  name_alt : Option String
  height : Option Int
  description : Option String
  interpretation : Option String
  coordinates : Option (ℚ × ℚ)
  image : Option String
  preview : Option String
  comment : Option String
deriving DecidableEq, Repr

/-- The groupby key `tuple(row[:8])`: the eight non-image columns. -/
structure SKey where
  id : String
  ridge_id : String
  name : String
  name_alt : Option String
  height : Option Int
  description : Option String
  interpretation : Option String
  coordinates : Option (ℚ × ℚ)
deriving DecidableEq, Repr

/-- The parent key of a row: its first eight columns. -/
def parentKey (r : Row) : SKey :=
  ⟨r.id, r.ridge_id, r.name, r.name_alt, r.height, r.description,
   r.interpretation, r.coordinates⟩

/-- One entry of the `images` list of a summit document. -/
structure ImageRef where
  url : String
  preview_url : String
  comment : String
deriving DecidableEq, Repr

/-- The YAML document written for one summit. -/
structure SummitDoc where
  name : String
  name_alt : Option String
  height : Option Int
  description : Option String
  interpretation : Option String
  coordinates : ℚ × ℚ
  images : List ImageRef
deriving DecidableEq, Repr

/-- Model of `itertools.groupby(rows, key)`: chunk the list into maximal
runs of consecutive elements sharing the same key, pairing each run with
its key. -/
def pyGroupby {α κ : Type} [DecidableEq κ] (key : α → κ) : List α → List (κ × List α)
  | [] => []
  | x :: xs =>
    match pyGroupby key xs with
    | [] => [(key x, [x])]
    | (k, g) :: rest =>
      if key x = k then (k, x :: g) :: rest
      else (key x, [x]) :: (k, g) :: rest

/-- Full-image object key for image number `i` of a summit. -/
def imgUrl (sid comment : String) (i : ℕ) : String :=
  "summits/" ++ gen_image_key sid comment ++ "_" ++ toString i ++ ".jpg"

/-- Preview object key for image number `i` of a summit. -/
def prevUrl (sid comment : String) (i : ℕ) : String :=
  "summits/" ++ gen_image_key sid comment ++ "_" ++ toString i ++ "_preview.jpg"

/-- Embeds the inner image loop of `import_summits`
(src/import/import.py lines 126-148) with `i` as the running position:
a row whose image column is null is skipped without consuming `i`; for
an image row, `Path(images_src_dir) / preview_filename` raises
`TypeError` when the preview column is null, as does
`translit(comment, ...)` when the comment column is null; otherwise the
two object keys are derived, two transfer tasks are appended and one
ImageRef is appended, and `i` is incremented. -/
def processImages (dir sid : String) : List Row → ℕ →
    Except PyErr (List ImageRef × List (String × String))
  | [], _ => .ok ([], [])
  | r :: rest, i =>
    match r.image with
    | none => processImages dir sid rest i
    | some img =>
      match r.preview with
      | none => .error .typeError
      | some prev =>
        match r.comment with
        | none => .error .typeError
        | some c =>
          match processImages dir sid rest (i + 1) with
          | .error e => .error e
          | .ok (refs, tasks) =>
            .ok (⟨imgUrl sid c i, prevUrl sid c i, c⟩ :: refs,
                 (dir ++ "/" ++ img, imgUrl sid c i)
                   :: (dir ++ "/" ++ prev, prevUrl sid c i) :: tasks)

/-- Embeds the body of the groupby loop of `import_summits` for one run:
`summit_data` is built first — `list(coordinates)` raises `TypeError`
when the coordinates column is null — and then the image loop runs with
`i = 0`. -/
def processRun (dir : String) (k : SKey) (g : List Row) :
    Except PyErr (SummitDoc × List (String × String)) :=
  match k.coordinates with
  | none => .error .typeError
  | some c =>
    match processImages dir k.id g 0 with
    | .error e => .error e
    | .ok (refs, tasks) =>
      .ok (⟨k.name, k.name_alt, k.height, k.description, k.interpretation,
            c, refs⟩, tasks)

/-- Outcome of `import_summits`: the documents written (one YAML file
per completed run, in run order), the accumulated transfer task list,
and the first uncaught exception if one was raised.  On an exception,
documents of the runs already completed remain written and the upload
call never happens. -/
structure SummitsResult where
  docs : List SummitDoc
  tasks : List (String × String)
  err : Option PyErr
deriving DecidableEq, Repr

/-- Sequential processing of the groupby runs; a raised exception stops
processing, keeping the documents written so far. -/
def processGroups (dir : String) : List (SKey × List Row) → SummitsResult
  | [] => ⟨[], [], none⟩
  | (k, g) :: rest =>
    match processRun dir k g with
    | .error e => ⟨[], [], some e⟩
    | .ok (doc, tasks) =>
      let r := processGroups dir rest
      ⟨doc :: r.docs, tasks ++ r.tasks, r.err⟩

/-- Embeds `import_summits` (src/import/import.py lines 92-151): group
the ordered row stream by its first eight columns and process each run
in order. -/
def import_summits (dir : String) (rows : List Row) : SummitsResult :=
  processGroups dir (pyGroupby parentKey rows)

/-- The image-bearing rows of a run, in order. -/
def imageRows (g : List Row) : List Row :=
  g.filter (fun r => r.image.isSome)

/-- Specification-side ImageRef for the row at position `i`. -/
def specRef (sid : String) (ir : ℕ × Row) : ImageRef :=
  ⟨imgUrl sid (ir.2.comment.getD "") ir.1,
   prevUrl sid (ir.2.comment.getD "") ir.1,
   ir.2.comment.getD ""⟩

/-- Specification-side pair of transfer tasks for the row at position
`i`. -/
def specTasks (dir sid : String) (ir : ℕ × Row) : List (String × String) :=
  [(dir ++ "/" ++ ir.2.image.getD "", imgUrl sid (ir.2.comment.getD "") ir.1),
   (dir ++ "/" ++ ir.2.preview.getD "", prevUrl sid (ir.2.comment.getD "") ir.1)]

/-- Specification-side document for one run: the key's summit columns
plus one ImageRef per image-bearing row, numbered from 0. -/
def specDoc (kg : SKey × List Row) : SummitDoc :=
  ⟨kg.1.name, kg.1.name_alt, kg.1.height, kg.1.description,
   kg.1.interpretation, kg.1.coordinates.getD (0, 0),
   (imageRows kg.2).enum.map (specRef kg.1.id)⟩

/-- Specification-side transfer tasks contributed by one run. -/
def specGroupTasks (dir : String) (kg : SKey × List Row) : List (String × String) :=
  (imageRows kg.2).enum.flatMap (specTasks dir kg.1.id)

/-- Outcome of the `head_object` existence probe as `upload_image` sees
it: success, or a `ClientError` carrying an error code string. -/
inductive HeadProbe where
  | found
  | clientError (code : String)
deriving DecidableEq, Repr

/-- What `upload_image` does with one task: skip (object already
present), perform a `put` with the given content type, or re-raise the
probe's error. -/
inductive UploadOutcome where
  | skipped
  | put (contentType : String)
  | raised (code : String)
deriving DecidableEq, Repr

/-- Embeds `upload_image` (src/import/import.py lines 55-71): if the
probe succeeds the task is already satisfied; on a `ClientError` with
code `"404"` the file is uploaded with content type `image/jpeg`; any
other `ClientError` code is re-raised. -/
def upload_image (probe : HeadProbe) : UploadOutcome :=
  match probe with
  | .found => .skipped
  | .clientError code =>
    if code = "404" then .put "image/jpeg" else .raised code

/-- Probe semantics stipulated by the uploader claims: a key reports
found exactly when it is in the store (i.e. exactly after it has been
put). -/
def headFor (store : List String) (key : String) : HeadProbe :=
  if key ∈ store then .found else .clientError "404"

/-- Embeds `upload_images_bulk` (src/import/import.py lines 38-52) over
an object-store state, with the semaphore-bounded `asyncio.gather`
modelled as resolution in task-list order: each `(path, key)` task runs
`upload_image` against the probe; a put adds the key to the store and is
recorded.  Returns the final store and the list of put calls
performed. -/
def upload_images_bulk (store : List String) :
    List (String × String) → List String × List (String × String)
  | [] => (store, [])
  | (p, k) :: ts =>
    match upload_image (headFor store k) with
    | .put _ =>
      let r := upload_images_bulk (k :: store) ts
      (r.1, (p, k) :: r.2)
    | _ => upload_images_bulk store ts

/-- One row of the `users` mirror table. -/
structure User where
  id : Int
  oauth_id : String
  src : Int
  name : String
deriving DecidableEq, Repr

/-- One row of the `user_images` mirror table. -/
structure UserImage where
  user_id : Int
  size : String
  url : String
deriving DecidableEq, Repr

/-- One row of the `climbs` mirror table (also the shape of the source
query's rows). -/
structure Climb where
  user_id : Int
  summit_id : String
  comment : Option String
  year : Option Int
  month : Option Int
  day : Option Int
deriving DecidableEq, Repr

/-- Embeds `INSERT INTO users ... ON CONFLICT DO NOTHING`
(src/import/import.py lines 169-172): a row whose primary key already
exists leaves the table unchanged; otherwise the row is appended. -/
def insertUser (tbl : List User) (u : User) : List User :=
  if tbl.any (fun v => v.id == u.id) then tbl else tbl ++ [u]

/-- Embeds the plain `INSERT INTO user_images ...`
(src/import/import.py lines 180-183): always appends. -/
def insertUserImage (tbl : List UserImage) (r : UserImage) : List UserImage :=
  tbl ++ [r]

/-- Embeds the plain `INSERT INTO climbs ...`
(src/import/import.py lines 194-197): always appends. -/
def insertClimb (tbl : List Climb) (r : Climb) : List Climb :=
  tbl ++ [r]

/-- Embeds `import_climbs` (src/import/import.py lines 188-198): insert
every source row into the climbs mirror table, in order. -/
def import_climbs (rows : List Climb) (tbl : List Climb) : List Climb :=
  rows.foldl insertClimb tbl

/-- One row of the users source query: `id, oauth_id, src, name, image,
preview`, the last two nullable. -/
structure URow where
  id : Int
  oauth_id : String
  src : Int
  name : String
  image : Option String
  preview : Option String
deriving DecidableEq, Repr

/-- The mirror-store tables touched by `import_users`. -/
structure Mirror where
  users : List User
  user_images : List UserImage
deriving DecidableEq, Repr

/-- Python truthiness of an optional string: `None` and the empty string
are falsy. -/
def truthy : Option String → Bool
  | none => false
  | some s => !(s == "")

/-- Outcome of `import_users`: the committed mirror state, the transfer
task list handed to the bulk uploader, and the first uncaught exception
if one was raised.  On an exception neither the upload call nor
`sqlite_conn.commit()` is reached, so the uncommitted mirror writes are
rolled back to the incoming state and no tasks are handed over. -/
structure UsersResult where
  store : Mirror
  tasks : List (String × String)
  err : Option PyErr
deriving DecidableEq, Repr

/-- Embeds one iteration of the `for img, size in [(image, "M"),
(preview, "S")]` loop of `import_users` (src/import/import.py lines
174-184): `Path(images_src_dir) / img` raises `TypeError` when `img` is
null; a path that does not exist on disk is skipped; otherwise a
transfer task is queued and a `user_images` row inserted. -/
def processUserAsset (dir : String) (fs : String → Bool) (uid : Int)
    (img : Option String) (size : String) (st : Mirror × List (String × String)) :
    Except PyErr (Mirror × List (String × String)) :=
  match img with
  | none => .error .typeError
  | some f =>
    let path := dir ++ "/" ++ f
    if fs path then
      let key := "users/" ++ toString uid ++ "_" ++ size ++ ".jpg"
      .ok (⟨st.1.users, insertUserImage st.1.user_images ⟨uid, size, key⟩⟩,
           st.2 ++ [(path, key)])
    else .ok st

/-- Embeds the body of the row loop of `import_users`: the idempotent
user insert always runs; the asset loop runs only when the image column
is truthy, first for the image (size `M`), then for the preview (size
`S`). -/
def processURow (dir : String) (fs : String → Bool)
    (st : Mirror × List (String × String)) (u : URow) :
    Except PyErr (Mirror × List (String × String)) :=
  let st1 : Mirror × List (String × String) :=
    (⟨insertUser st.1.users ⟨u.id, u.oauth_id, u.src, u.name⟩, st.1.user_images⟩, st.2)
  if truthy u.image then
    match processUserAsset dir fs u.id u.image "M" st1 with
    | .error e => .error e
    | .ok st2 => processUserAsset dir fs u.id u.preview "S" st2
  else .ok st1

/-- Row-by-row processing of the users source stream. -/
def processURows (dir : String) (fs : String → Bool) :
    List URow → Mirror × List (String × String) →
    Except PyErr (Mirror × List (String × String))
  | [], st => .ok st
  | u :: us, st =>
    match processURow dir fs st u with
    | .error e => .error e
    | .ok st2 => processURows dir fs us st2

/-- Embeds `import_users` (src/import/import.py lines 154-185) against
an existence oracle `fs` for the local image directory: on success the
accumulated mirror writes are committed and the task list handed to the
bulk uploader; an uncaught exception aborts before both, leaving the
mirror store as it was. -/
def import_users (dir : String) (fs : String → Bool) (rows : List URow)
    (store : Mirror) : UsersResult :=
  match processURows dir fs rows (store, []) with
  | .ok (m, tasks) => ⟨m, tasks, none⟩
  | .error e => ⟨store, [], some e⟩

/-! ### Concrete sample data used to instantiate the theorems -/

/-- The summit row of the end-to-end scenario of the design document:
summit `s1` in ridge `r1`, coordinates decoded from
`"(45.12345,7.6789)"` (the value `mkRat 225617 5000` is `45.1234`,
`mkRat 76789 10000` is `7.6789`), one image row `a.jpg`/`a_p.jpg` with
comment `"Вид"`. -/
def r7 : Row :=
  ⟨"s1", "r1", "Peak", none, some 4000, none, none,
   some (mkRat 225617 5000, mkRat 76789 10000),
   some "a.jpg", some "a_p.jpg", some "Вид"⟩

/-- A summit row with a non-null image filename but a null preview
filename. -/
def r8 : Row :=
  ⟨"s2", "r1", "Q", none, none, none, none, some (1, 2),
   some "img.jpg", none, some "c"⟩

/-- A summit row with a null image filename but a non-null preview
filename. -/
def r8none : Row :=
  ⟨"s2", "r1", "Q", none, none, none, none, some (1, 2),
   none, some "p.jpg", none⟩

/-- First row of parent `A`: has an image. -/
def wrA1 : Row :=
  ⟨"A", "r", "n", none, none, none, none, some (1, 2),
   some "a1.jpg", some "p1.jpg", some "c one"⟩

/-- Second row of parent `A`: the image columns are null. -/
def wrA2 : Row :=
  ⟨"A", "r", "n", none, none, none, none, some (1, 2), none, none, none⟩

/-- Row of parent `B`, sorted after `A`. -/
def wrB1 : Row :=
  ⟨"B", "r", "m", none, none, none, none, some (3, 4),
   some "b1.jpg", some "q1.jpg", some "d"⟩

/-- Two users-mirror rows sharing the primary key `1`. -/
def u0 : User := ⟨1, "a", 0, "Alice"⟩

/-- Second row with the same primary key as `u0`. -/
def u1 : User := ⟨1, "b", 1, "Bob"⟩

/-- A users source row with a truthy image and a null preview. -/
def w10a : URow := ⟨1, "o", 0, "N", some "a.jpg", none⟩

/-- A users source row with both image and preview non-null. -/
def w10b : URow := ⟨2, "o", 0, "N", some "a.jpg", some "p.jpg"⟩

/-- Disk oracle under which only `/i/a.jpg` exists. -/
def w10fs : String → Bool := fun p => p == "/i/a.jpg"

/-! ### Lemmas about the bulk uploader -/

lemma upload_images_bulk_cons (store : List String) (p k : String)
    (ts : List (String × String)) :
    upload_images_bulk store ((p, k) :: ts) =
      if k ∈ store then upload_images_bulk store ts
      else ((upload_images_bulk (k :: store) ts).1,
            (p, k) :: (upload_images_bulk (k :: store) ts).2) := by
  by_cases h : k ∈ store <;>
    simp [upload_images_bulk, headFor, upload_image, h]

lemma mem_fst_upload_images_bulk (ts : List (String × String)) :
    ∀ store k, k ∈ store → k ∈ (upload_images_bulk store ts).1 := by
  induction ts with
  | nil => intro store k hk; simpa [upload_images_bulk] using hk
  | cons t ts ih =>
    obtain ⟨p, k'⟩ := t
    intro store k hk
    rw [upload_images_bulk_cons]
    by_cases h : k' ∈ store
    · simpa [h] using ih store k hk
    · simpa [h] using ih (k' :: store) k (List.mem_cons_of_mem _ hk)

lemma keys_mem_fst_upload_images_bulk (ts : List (String × String)) :
    ∀ store k, k ∈ ts.map Prod.snd → k ∈ (upload_images_bulk store ts).1 := by
  induction ts with
  | nil => intro store k hk; simp at hk
  | cons t ts ih =>
    obtain ⟨p, k'⟩ := t
    intro store k hk
    rw [upload_images_bulk_cons]
    by_cases h : k' ∈ store
    · rw [if_pos h]
      rcases List.mem_cons.mp hk with hk | hk
      · exact mem_fst_upload_images_bulk ts store k (hk ▸ h)
      · exact ih store k hk
    · rw [if_neg h]
      rcases List.mem_cons.mp hk with hk | hk
      · exact mem_fst_upload_images_bulk ts (k' :: store) k (hk ▸ List.mem_cons_self _ _)
      · exact ih (k' :: store) k hk

lemma upload_images_bulk_all_present (ts : List (String × String)) :
    ∀ store, (∀ k ∈ ts.map Prod.snd, k ∈ store) →
      upload_images_bulk store ts = (store, []) := by
  induction ts with
  | nil => intro store _; rfl
  | cons t ts ih =>
    obtain ⟨p, k'⟩ := t
    intro store h
    have hk' : k' ∈ store := h k' (by simp)
    rw [upload_images_bulk_cons, if_pos hk']
    exact ih store (fun k hk => h k (by simp [hk]))

lemma count_puts_upload_images_bulk (ts : List (String × String)) :
    ∀ store k, ((upload_images_bulk store ts).2.map Prod.snd).count k =
      if k ∈ ts.map Prod.snd ∧ k ∉ store then 1 else 0 := by
  induction ts with
  | nil => intro store k; simp [upload_images_bulk]
  | cons t ts ih =>
    obtain ⟨p, k'⟩ := t
    intro store k
    rw [upload_images_bulk_cons]
    by_cases h : k' ∈ store
    · rw [if_pos h, ih store k]
      by_cases hkk : k = k'
      · subst hkk; simp [h]
      · exact if_congr (by simp [List.mem_cons, hkk]) rfl rfl
    · rw [if_neg h]
      by_cases hkk : k = k'
      · subst hkk
        have hrest : ((upload_images_bulk (k :: store) ts).2.map Prod.snd).count k = 0 := by
          rw [ih (k :: store) k]; simp
        simp [List.count_cons, hrest, h]
      · have hk'k : ¬ k' = k := fun h2 => hkk h2.symm
        have hrest := ih (k' :: store) k
        simp only [List.map_cons, List.count_cons]
        rw [hrest]
        simp only [beq_iff_eq]
        rw [if_neg hk'k, Nat.add_zero]
        exact if_congr (by simp [List.mem_cons, hkk]) rfl rfl

/-! ### Lemmas about grouping and the summit exporter -/

lemma pyGroupby_ne_nil {α κ : Type} [DecidableEq κ] (key : α → κ) (x : α)
    (xs : List α) : pyGroupby key (x :: xs) ≠ [] := by
  simp only [pyGroupby]
  cases hg : pyGroupby key xs with
  | nil => simp
  | cons kg rest =>
    obtain ⟨k, g⟩ := kg
    by_cases h : key x = k <;> simp [h]

lemma flatMap_pyGroupby {α κ : Type} [DecidableEq κ] (key : α → κ) :
    ∀ l : List α, (pyGroupby key l).flatMap Prod.snd = l := by
  intro l
  induction l with
  | nil => rfl
  | cons x xs ih =>
    simp only [pyGroupby]
    cases hg : pyGroupby key xs with
    | nil =>
      have hxs : xs = [] := by
        by_contra hne
        obtain ⟨y, ys, rfl⟩ := List.exists_cons_of_ne_nil hne
        exact pyGroupby_ne_nil key y ys hg
      simp [hxs]
    | cons kg rest =>
      obtain ⟨k, g⟩ := kg
      rw [hg] at ih
      by_cases h : key x = k
      · simp only [if_pos h, List.flatMap_cons] at ih ⊢
        simp [← ih]
      · simp only [if_neg h, List.flatMap_cons] at ih ⊢
        simp [← List.flatMap_cons, ih]

lemma mem_pyGroupby_key {α κ : Type} [DecidableEq κ] (key : α → κ) :
    ∀ (l : List α) (kg : κ × List α), kg ∈ pyGroupby key l →
      ∀ a ∈ kg.2, key a = kg.1 := by
  intro l
  induction l with
  | nil => intro kg h; simp [pyGroupby] at h
  | cons x xs ih =>
    intro kg hkg a ha
    cases hg : pyGroupby key xs with
    | nil =>
      have h2 : pyGroupby key (x :: xs) = [(key x, [x])] := by
        simp only [pyGroupby, hg]
      rw [h2] at hkg
      simp at hkg
      subst hkg
      simp at ha
      subst ha
      rfl
    | cons kg0 rest =>
      obtain ⟨k, g⟩ := kg0
      have h2 : pyGroupby key (x :: xs) =
          if key x = k then (k, x :: g) :: rest
          else (key x, [x]) :: (k, g) :: rest := by
        simp only [pyGroupby, hg]
      rw [h2] at hkg
      by_cases h : key x = k
      · rw [if_pos h] at hkg
        rcases List.mem_cons.mp hkg with rfl | hkg
        · rcases List.mem_cons.mp ha with rfl | ha
          · exact h
          · exact ih (k, g) (hg ▸ List.mem_cons_self _ _) a ha
        · exact ih kg (hg ▸ List.mem_cons_of_mem _ hkg) a ha
      · rw [if_neg h] at hkg
        rcases List.mem_cons.mp hkg with rfl | hkg
        · simp at ha; subst ha; rfl
        · exact ih kg (hg ▸ hkg) a ha

lemma mem_pyGroupby_sub {α κ : Type} [DecidableEq κ] (key : α → κ)
    (l : List α) (kg : κ × List α) (hkg : kg ∈ pyGroupby key l) :
    ∀ a ∈ kg.2, a ∈ l := by
  intro a ha
  rw [← flatMap_pyGroupby key l]
  exact List.mem_flatMap.mpr ⟨kg, hkg, ha⟩

lemma mem_pyGroupby_ne_nil {α κ : Type} [DecidableEq κ] (key : α → κ) :
    ∀ (l : List α) (kg : κ × List α), kg ∈ pyGroupby key l → kg.2 ≠ [] := by
  intro l
  induction l with
  | nil => intro kg h; simp [pyGroupby] at h
  | cons x xs ih =>
    intro kg hkg
    cases hg : pyGroupby key xs with
    | nil =>
      have h2 : pyGroupby key (x :: xs) = [(key x, [x])] := by
        simp only [pyGroupby, hg]
      rw [h2] at hkg
      simp at hkg
      subst hkg
      simp
    | cons kg0 rest =>
      obtain ⟨k, g⟩ := kg0
      have h2 : pyGroupby key (x :: xs) =
          if key x = k then (k, x :: g) :: rest
          else (key x, [x]) :: (k, g) :: rest := by
        simp only [pyGroupby, hg]
      rw [h2] at hkg
      by_cases h : key x = k
      · rw [if_pos h] at hkg
        rcases List.mem_cons.mp hkg with rfl | hkg
        · simp
        · exact ih kg (hg ▸ List.mem_cons_of_mem _ hkg)
      · rw [if_neg h] at hkg
        rcases List.mem_cons.mp hkg with rfl | hkg
        · simp
        · exact ih kg (hg ▸ hkg)

lemma processImages_spec (dir sid : String) :
    ∀ (g : List Row) (i : ℕ),
      (∀ r ∈ g, r.image.isSome = true →
        r.preview.isSome = true ∧ r.comment.isSome = true) →
      processImages dir sid g i =
        .ok ((List.enumFrom i (imageRows g)).map (specRef sid),
             (List.enumFrom i (imageRows g)).flatMap (specTasks dir sid)) := by
  intro g
  induction g with
  | nil => intro i _; simp [processImages, imageRows]
  | cons r g ih =>
    intro i h
    cases hr : r.image with
    | none =>
      have := ih i (fun r hr2 => h r (List.mem_cons_of_mem _ hr2))
      simp [processImages, hr, imageRows, List.filter_cons, this]
    | some img =>
      have hrc := h r (List.mem_cons_self _ _) (by simp [hr])
      obtain ⟨p, hp⟩ := Option.isSome_iff_exists.mp hrc.1
      obtain ⟨c, hc⟩ := Option.isSome_iff_exists.mp hrc.2
      have := ih (i + 1) (fun r hr2 => h r (List.mem_cons_of_mem _ hr2))
      simp only [processImages, hr, hp, hc, this]
      simp [imageRows, List.filter_cons, hr, List.enumFrom, specRef, specTasks,
        hp, hc]

lemma processImages_refs (dir sid : String) :
    ∀ (g : List Row) (i : ℕ) (refs : List ImageRef)
      (tasks : List (String × String)),
      processImages dir sid g i = .ok (refs, tasks) →
      ∀ ref ∈ refs,
        (∃ p2, (p2, ref.url) ∈ tasks) ∧ (∃ p2, (p2, ref.preview_url) ∈ tasks) := by
  intro g
  induction g with
  | nil =>
    intro i refs tasks h ref href
    simp [processImages] at h
    rw [h.1] at href
    simp at href
  | cons r g ih =>
    intro i refs tasks h ref href
    cases hr : r.image with
    | none =>
      rw [processImages, hr] at h
      exact ih i refs tasks h ref href
    | some img =>
      rw [processImages, hr] at h
      cases hp : r.preview with
      | none => rw [hp] at h; simp at h
      | some p =>
        rw [hp] at h
        cases hc : r.comment with
        | none => rw [hc] at h; simp at h
        | some c =>
          rw [hc] at h
          cases hrec : processImages dir sid g (i + 1) with
          | error e => rw [hrec] at h; simp at h
          | ok pr =>
            obtain ⟨refs0, tasks0⟩ := pr
            rw [hrec] at h
            simp only [Except.ok.injEq, Prod.mk.injEq] at h
            obtain ⟨hrefs, htasks⟩ := h
            rw [← hrefs] at href
            rcases List.mem_cons.mp href with rfl | href
            · constructor
              · exact ⟨dir ++ "/" ++ img, by rw [← htasks]; simp⟩
              · exact ⟨dir ++ "/" ++ p, by rw [← htasks]; simp⟩
            · have := ih (i + 1) refs0 tasks0 hrec ref href
              constructor
              · obtain ⟨p2, hp2⟩ := this.1
                exact ⟨p2, by rw [← htasks]; simp [hp2]⟩
              · obtain ⟨p2, hp2⟩ := this.2
                exact ⟨p2, by rw [← htasks]; simp [hp2]⟩

lemma processRun_ok (dir : String) (k : SKey) (g : List Row)
    (doc : SummitDoc) (tasks : List (String × String))
    (h : processRun dir k g = .ok (doc, tasks)) :
    processImages dir k.id g 0 = .ok (doc.images, tasks) := by
  rw [processRun] at h
  cases hco : k.coordinates with
  | none => rw [hco] at h; simp at h
  | some c =>
    rw [hco] at h
    cases hpi : processImages dir k.id g 0 with
    | error e => rw [hpi] at h; simp at h
    | ok pr =>
      obtain ⟨refs, ts⟩ := pr
      rw [hpi] at h
      simp only [Except.ok.injEq, Prod.mk.injEq] at h
      rw [← h.1, ← h.2]

lemma processRun_spec (dir : String) (k : SKey) (g : List Row)
    (hne : g ≠ [])
    (hkey : ∀ r ∈ g, parentKey r = k)
    (hcoord : ∀ r ∈ g, r.coordinates.isSome = true)
    (himg : ∀ r ∈ g, r.image.isSome = true →
      r.preview.isSome = true ∧ r.comment.isSome = true) :
    processRun dir k g = .ok (specDoc (k, g), specGroupTasks dir (k, g)) := by
  obtain ⟨r0, g0, rfl⟩ := List.exists_cons_of_ne_nil hne
  have hk0 : k.coordinates = r0.coordinates := by
    rw [← hkey r0 (List.mem_cons_self _ _)]; rfl
  obtain ⟨c, hc⟩ :=
    Option.isSome_iff_exists.mp (hcoord r0 (List.mem_cons_self _ _))
  rw [processRun, hk0, hc, processImages_spec dir k.id _ 0 himg]
  simp [specDoc, specGroupTasks, hk0, hc, List.enum]

lemma processGroups_spec (dir : String) :
    ∀ gs : List (SKey × List Row),
      (∀ kg ∈ gs, processRun dir kg.1 kg.2 =
        .ok (specDoc kg, specGroupTasks dir kg)) →
      processGroups dir gs =
        ⟨gs.map specDoc, gs.flatMap (specGroupTasks dir), none⟩ := by
  intro gs
  induction gs with
  | nil => intro _; rfl
  | cons kg gs ih =>
    intro h
    obtain ⟨k, g⟩ := kg
    have hhead := h (k, g) (List.mem_cons_self _ _)
    simp only [processGroups, hhead]
    rw [ih (fun kg2 hkg2 => h kg2 (List.mem_cons_of_mem _ hkg2))]
    simp

lemma processGroups_refs (dir : String) :
    ∀ gs : List (SKey × List Row),
      (processGroups dir gs).err = none →
      ∀ doc ∈ (processGroups dir gs).docs, ∀ ref ∈ doc.images,
        (∃ p2, (p2, ref.url) ∈ (processGroups dir gs).tasks) ∧
        (∃ p2, (p2, ref.preview_url) ∈ (processGroups dir gs).tasks) := by
  intro gs
  induction gs with
  | nil => intro _ doc hdoc; simp [processGroups] at hdoc
  | cons kg gs ih =>
    intro herr doc hdoc ref href
    obtain ⟨k, g⟩ := kg
    cases hpr : processRun dir k g with
    | error e =>
      rw [processGroups, hpr] at herr
      simp at herr
    | ok pr =>
      obtain ⟨doc0, tasks0⟩ := pr
      rw [processGroups, hpr] at herr hdoc ⊢
      simp only at herr hdoc ⊢
      rcases List.mem_cons.mp hdoc with rfl | hdoc
      · have := processImages_refs dir k.id g 0 doc.images tasks0
          (processRun_ok dir k g doc tasks0 hpr) ref href
        constructor
        · obtain ⟨p2, hp2⟩ := this.1
          exact ⟨p2, List.mem_append_left _ hp2⟩
        · obtain ⟨p2, hp2⟩ := this.2
          exact ⟨p2, List.mem_append_left _ hp2⟩
      · have := ih herr doc hdoc ref href
        constructor
        · obtain ⟨p2, hp2⟩ := this.1
          exact ⟨p2, List.mem_append_right _ hp2⟩
        · obtain ⟨p2, hp2⟩ := this.2
          exact ⟨p2, List.mem_append_right _ hp2⟩

/-! ### Lemmas about the mirror writer -/

lemma import_climbs_append (rows : List Climb) :
    ∀ tbl, import_climbs rows tbl = tbl ++ rows := by
  induction rows with
  | nil => intro tbl; simp [import_climbs]
  | cons r rs ih =>
    intro tbl
    simp [import_climbs, insertClimb] at ih ⊢
    rw [ih]
    simp

lemma processURow_ok (dir : String) (fs : String → Bool)
    (st : Mirror × List (String × String)) (u : URow)
    (h : truthy u.image = true → u.preview.isSome = true) :
    ∃ st2, processURow dir fs st u = .ok st2 := by
  by_cases ht : truthy u.image = true
  · obtain ⟨p, hp⟩ := Option.isSome_iff_exists.mp (h ht)
    cases hi : u.image with
    | none => rw [hi] at ht; simp [truthy] at ht
    | some f =>
      have ht2 : truthy (some f) = true := hi ▸ ht
      by_cases hM : fs (dir ++ "/" ++ f) <;>
        by_cases hS : fs (dir ++ "/" ++ p) <;>
          simp [processURow, processUserAsset, hi, hp, ht2, hM, hS]
  · have ht2 : truthy u.image = false := by simpa using ht
    simp [processURow, ht2]

lemma processURows_ok (dir : String) (fs : String → Bool) :
    ∀ (rows : List URow) (st : Mirror × List (String × String)),
      (∀ u ∈ rows, truthy u.image = true → u.preview.isSome = true) →
      ∃ st2, processURows dir fs rows st = .ok st2 := by
  intro rows
  induction rows with
  | nil => intro st _; exact ⟨st, rfl⟩
  | cons u us ih =>
    intro st h
    obtain ⟨st1, h1⟩ := processURow_ok dir fs st u (h u (List.mem_cons_self _ _))
    obtain ⟨st2, h2⟩ := ih st1 (fun v hv => h v (List.mem_cons_of_mem _ hv))
    exact ⟨st2, by rw [processURows, h1]; exact h2⟩

/-! ### The claims -/

/-- C6: the point decoder maps an absent value to an absent value; an
input that splits into exactly two float components is decoded to the
pair of components, each rounded to 4 decimal places; and it raises
`MalformedCoordinate` (`psycopg2.InterfaceError`) exactly when the text
does not split into two float components.  The embedded function is
pure, so decoding has no side effects. -/
theorem cast_point_spec :
    cast_point none = .ok none ∧
    (∀ s x y, twoFloatComponents s = some (x, y) →
      cast_point (some s) = .ok (some (pyRound4 x, pyRound4 y))) ∧
    (∀ s, cast_point (some s) = .error .malformedCoordinate ↔
      twoFloatComponents s = none) := by
  refine ⟨rfl, ?_, ?_⟩
  · intro s x y h
    rw [twoFloatComponents] at h
    cases hm : (splitOnChar ',' (pyStrip ['(', ')'] s.toList)).mapM pyFloat with
    | none => rw [hm] at h; simp at h
    | some qs =>
      rw [hm] at h
      match qs with
      | [] => simp at h
      | [a] => simp at h
      | [a, b] =>
        simp at h
        rw [cast_point, hm]
        simp [h.1, h.2]
      | a :: b :: c :: t => simp at h
  · intro s
    rw [cast_point, twoFloatComponents]
    cases hm : (splitOnChar ',' (pyStrip ['(', ')'] s.toList)).mapM pyFloat with
    | none => simp
    | some qs =>
      match qs with
      | [] => simp
      | [a] => simp
      | [a, b] => simp
      | a :: b :: c :: t => simp

/-- Witness for C6 at the concrete input `"(1,2)"`. -/
theorem cast_point_spec_witness :
    twoFloatComponents "(1,2)" = some (mkRat 1 1, mkRat 2 1) ∧
    cast_point (some "(1,2)") =
      .ok (some (pyRound4 (mkRat 1 1), pyRound4 (mkRat 2 1))) :=
  ⟨by decide, cast_point_spec.2.1 "(1,2)" (mkRat 1 1) (mkRat 2 1) (by decide)⟩

/-- C3: for a single transfer task, a successful existence probe means
no put and no error; a probe failure with code `"404"` leads to a put
with content type `image/jpeg`; any other probe failure code is
re-raised for that task rather than treated as not-found. -/
theorem upload_image_probe_semantics :
    upload_image .found = .skipped ∧
    upload_image (.clientError "404") = .put "image/jpeg" ∧
    ∀ code, code ≠ "404" → upload_image (.clientError code) = .raised code := by
  refine ⟨rfl, rfl, ?_⟩
  intro code h
  simp [upload_image, h]

/-- Witness for C3 at the probe failure code `"403"`. -/
theorem upload_image_probe_semantics_witness :
    ("403" : String) ≠ "404" ∧
    upload_image (.clientError "403") = .raised "403" :=
  ⟨by decide, upload_image_probe_semantics.2.2 "403" (by decide)⟩

/-- C4: starting from a store holding none of the task keys (a key
exists exactly after it has been put), running the bulk uploader twice
over the same task list performs zero puts in the second run, and across
both runs combined exactly one put per unique destination key. -/
theorem upload_images_bulk_idempotent (tasks : List (String × String)) :
    (upload_images_bulk (upload_images_bulk [] tasks).1 tasks).2 = [] ∧
    ∀ k, (((upload_images_bulk [] tasks).2 ++
        (upload_images_bulk (upload_images_bulk [] tasks).1 tasks).2).map
          Prod.snd).count k =
      if k ∈ tasks.map Prod.snd then 1 else 0 := by
  have hsecond : upload_images_bulk (upload_images_bulk [] tasks).1 tasks =
      ((upload_images_bulk [] tasks).1, []) :=
    upload_images_bulk_all_present tasks _
      (fun k hk => keys_mem_fst_upload_images_bulk tasks [] k hk)
  constructor
  · rw [hsecond]
  · intro k
    rw [hsecond]
    simp only [List.append_nil]
    rw [count_puts_upload_images_bulk tasks [] k]
    exact if_congr (and_iff_left (List.not_mem_nil k)) rfl rfl

/-- C9: the users-mirror insert is idempotent by primary key (a row
whose id already exists leaves the table unchanged, without error),
while `user_images` and `climbs` inserts never deduplicate, so importing
the climbs rows twice appends them twice. -/
theorem mirror_insert_semantics :
    (∀ (tbl : List User) (u : User), (∃ v ∈ tbl, v.id = u.id) →
      insertUser tbl u = tbl) ∧
    (∀ (tbl : List UserImage) (r : UserImage), insertUserImage tbl r = tbl ++ [r]) ∧
    (∀ (tbl rows : List Climb),
      import_climbs rows (import_climbs rows tbl) = tbl ++ rows ++ rows) := by
  refine ⟨?_, fun tbl r => rfl, ?_⟩
  · rintro tbl u ⟨v, hv, hid⟩
    have hany : tbl.any (fun w => w.id == u.id) = true :=
      List.any_eq_true.mpr ⟨v, hv, by simp [hid]⟩
    simp [insertUser, hany]
  · intro tbl rows
    rw [import_climbs_append, import_climbs_append]

/-- Witness for C9: inserting a second row with the existing primary key
`1` leaves the table unchanged. -/
theorem mirror_insert_semantics_witness :
    (∃ v ∈ [u0], v.id = u1.id) ∧ insertUser [u0] u1 = [u0] :=
  ⟨by decide, mirror_insert_semantics.1 [u0] u1 (by decide)⟩

/-- Counterexample to C1 as stated: the single row `r8` forms one
contiguous run (distinct parent keys, length 1), yet the exporter
produces zero summit documents for it — the run aborts with a
`TypeError` while joining the null preview filename onto the source
directory, so no document is written for the run. -/
theorem import_summits_one_doc_per_run_cex :
    ((pyGroupby parentKey [r8]).map Prod.fst).Nodup ∧
    (pyGroupby parentKey [r8]).length = 1 ∧
    ((import_summits "/i" [r8]).docs.length = 0 ∧
      (import_summits "/i" [r8]).err = some .typeError) := by
  decide

/-- C1 (amended): for an ordered row sequence in which rows sharing the
same first-8-column parent key are contiguous, provided additionally
that every row has non-null coordinates and that every row with a
non-null image filename also has a non-null preview filename and
comment, the exporter produces exactly one summit document per
contiguous run; within a run each image-bearing row gets the zero-based
position `i` counting only image-bearing rows (null-image rows are
skipped without consuming a position), contributing exactly one ImageRef
and exactly two transfer tasks. -/
theorem import_summits_grouping (dir : String) (rows : List Row)
    (hcontig : ((pyGroupby parentKey rows).map Prod.fst).Nodup)
    (hcoord : ∀ r ∈ rows, r.coordinates.isSome = true)
    (hok : ∀ r ∈ rows, r.image.isSome = true →
      r.preview.isSome = true ∧ r.comment.isSome = true) :
    import_summits dir rows =
      ⟨(pyGroupby parentKey rows).map specDoc,
       (pyGroupby parentKey rows).flatMap (specGroupTasks dir), none⟩ := by
  rw [import_summits]
  apply processGroups_spec
  intro kg hkg
  obtain ⟨k, g⟩ := kg
  apply processRun_spec
  · exact mem_pyGroupby_ne_nil parentKey rows (k, g) hkg
  · intro r hr
    exact mem_pyGroupby_key parentKey rows (k, g) hkg r hr
  · intro r hr
    exact hcoord r (mem_pyGroupby_sub parentKey rows (k, g) hkg r hr)
  · intro r hr
    exact hok r (mem_pyGroupby_sub parentKey rows (k, g) hkg r hr)

/-- Witness for the amended C1 on the two-run input `A, A(no image), B`:
two documents, the first with one image (the null-image row consumes no
position), the second with one image, and two transfer tasks per
image-bearing row. -/
theorem import_summits_grouping_witness :
    ((((pyGroupby parentKey [wrA1, wrA2, wrB1]).map Prod.fst).Nodup ∧
      (∀ r ∈ [wrA1, wrA2, wrB1], r.coordinates.isSome = true) ∧
      (∀ r ∈ [wrA1, wrA2, wrB1], r.image.isSome = true →
        r.preview.isSome = true ∧ r.comment.isSome = true)) ∧
     import_summits "/i" [wrA1, wrA2, wrB1] =
       ⟨(pyGroupby parentKey [wrA1, wrA2, wrB1]).map specDoc,
        (pyGroupby parentKey [wrA1, wrA2, wrB1]).flatMap (specGroupTasks "/i"),
        none⟩) ∧
    ((import_summits "/i" [wrA1, wrA2, wrB1]).docs.map
      (fun d => d.images.length) = [1, 1] ∧
     (import_summits "/i" [wrA1, wrA2, wrB1]).tasks.length = 4) :=
  ⟨⟨⟨by decide, by decide, by decide⟩,
    import_summits_grouping "/i" [wrA1, wrA2, wrB1] (by decide) (by decide)
      (by decide)⟩,
   by decide⟩

/-- C2: when `import_summits` processes all rows without an exception,
every object key appearing in a `url` or `preview_url` field of a
generated document is the destination key of some task in the transfer
list handed to the bulk uploader. -/
theorem import_summits_refs_have_tasks (dir : String) (rows : List Row)
    (h : (import_summits dir rows).err = none) :
    ∀ doc ∈ (import_summits dir rows).docs, ∀ ref ∈ doc.images,
      (∃ p, (p, ref.url) ∈ (import_summits dir rows).tasks) ∧
      (∃ p, (p, ref.preview_url) ∈ (import_summits dir rows).tasks) :=
  processGroups_refs dir (pyGroupby parentKey rows) h

/-- Witness for C2 on the two-run input. -/
theorem import_summits_refs_have_tasks_witness :
    ((import_summits "/i" [wrA1, wrA2, wrB1]).err = none) ∧
    (∀ doc ∈ (import_summits "/i" [wrA1, wrA2, wrB1]).docs, ∀ ref ∈ doc.images,
      (∃ p, (p, ref.url) ∈ (import_summits "/i" [wrA1, wrA2, wrB1]).tasks) ∧
      (∃ p, (p, ref.preview_url) ∈ (import_summits "/i" [wrA1, wrA2, wrB1]).tasks)) :=
  ⟨by decide, import_summits_refs_have_tasks "/i" [wrA1, wrA2, wrB1] (by decide)⟩

/-- Counterexample to C7 as stated: on the scenario input the decoded
and rounded x-coordinate stored in the document is `45.1234`
(`mkRat 225617 5000`), not the claimed `45.1235` (`mkRat 90247 2000`):
the binary64 value of `"45.12345"` is `45.1234499999999968…`, which
rounds down at 4 decimal places. -/
theorem summit_scenario_cex :
    cast_point (some "(45.12345,7.6789)") =
      .ok (some (mkRat 225617 5000, mkRat 76789 10000)) ∧
    (import_summits "/imgs" [r7]).docs.map SummitDoc.coordinates =
      [(mkRat 225617 5000, mkRat 76789 10000)] ∧
    (mkRat 225617 5000 : ℚ) ≠ mkRat 90247 2000 := by
  decide

/-- C7 (amended): on the scenario input — summit `s1`, coordinate text
`"(45.12345,7.6789)"`, one image row with comment `"Вид"` — the document
holds coordinates `[45.1234, 7.6789]` and exactly one image entry with
url `summits/s1_vid_0.jpg` and preview_url
`summits/s1_vid_0_preview.jpg`, and exactly the two transfer tasks for
those two keys are queued. -/
theorem summit_scenario :
    cast_point (some "(45.12345,7.6789)") =
      .ok (some (mkRat 225617 5000, mkRat 76789 10000)) ∧
    import_summits "/imgs" [r7] =
      ⟨[⟨"Peak", none, some 4000, none, none,
         (mkRat 225617 5000, mkRat 76789 10000),
         [⟨"summits/s1_vid_0.jpg", "summits/s1_vid_0_preview.jpg", "Вид"⟩]⟩],
       [("/imgs/a.jpg", "summits/s1_vid_0.jpg"),
        ("/imgs/a_p.jpg", "summits/s1_vid_0_preview.jpg")], none⟩ := by
  decide

/-- Counterexample to C8 as stated: a row with a non-null image filename
and a null preview filename is not skipped — the exporter raises a
`TypeError` (from `Path(images_src_dir) / None`) and writes no
document. -/
theorem mismatch_row_skip_cex :
    (import_summits "/i" [r8]).err = some .typeError ∧
    (import_summits "/i" [r8]).docs = [] := by
  decide

/-- C8 (amended): a row whose image filename is null is skipped as "no
image" without error, regardless of its preview column — no ImageRef, no
transfer tasks, and the position counter is not consumed; but a row with
a non-null image filename and a null preview filename raises a
`TypeError` instead of being skipped. -/
theorem mismatch_row_semantics (dir sid : String) (r : Row)
    (rest : List Row) (i : ℕ) :
    (r.image = none →
      processImages dir sid (r :: rest) i = processImages dir sid rest i) ∧
    (∀ f, r.image = some f → r.preview = none →
      processImages dir sid (r :: rest) i = .error .typeError) := by
  constructor
  · intro h
    simp [processImages, h]
  · intro f hf hp
    simp [processImages, hf, hp]

/-- Witness for C8 (amended): the null-image row `r8none` is skipped
without error or position consumption, while row `r8` (image non-null,
preview null) raises. -/
theorem mismatch_row_semantics_witness :
    (r8none.image = none ∧
      processImages "/i" "s2" [r8none] 0 = processImages "/i" "s2" [] 0) ∧
    (r8.image = some "img.jpg" ∧ r8.preview = none ∧
      processImages "/i" "s2" [r8] 0 = .error .typeError) :=
  ⟨⟨rfl, (mismatch_row_semantics "/i" "s2" r8none [] 0).1 rfl⟩,
   ⟨rfl, rfl, (mismatch_row_semantics "/i" "s2" r8 [] 0).2 "img.jpg" rfl rfl⟩⟩

/-- C10: in `import_users`, a row with a truthy image column and a null
preview column makes the run fail with a `TypeError` (the preview path
is built before its existence is checked); for a row with both columns
present the per-asset behaviour is: an asset whose file is missing on
disk is skipped (no transfer task, no `user_images` row), an asset whose
file exists yields one task and one row; and the run succeeds whenever
every truthy-image row has a non-null preview. -/
theorem import_users_asset_semantics (dir : String) (fs : String → Bool)
    (store : Mirror) :
    (∀ (u : URow) (rest : List URow), truthy u.image = true →
      u.preview = none →
      (import_users dir fs (u :: rest) store).err = some .typeError) ∧
    (∀ (u : URow) (p : String), truthy u.image = true →
      u.preview = some p →
      import_users dir fs [u] store =
        ⟨⟨insertUser store.users ⟨u.id, u.oauth_id, u.src, u.name⟩,
          store.user_images ++
            (if fs (dir ++ "/" ++ u.image.getD "") then
              [⟨u.id, "M", "users/" ++ toString u.id ++ "_" ++ "M" ++ ".jpg"⟩] else []) ++
            (if fs (dir ++ "/" ++ p) then
              [⟨u.id, "S", "users/" ++ toString u.id ++ "_" ++ "S" ++ ".jpg"⟩] else [])⟩,
         (if fs (dir ++ "/" ++ u.image.getD "") then
           [(dir ++ "/" ++ u.image.getD "",
             "users/" ++ toString u.id ++ "_" ++ "M" ++ ".jpg")] else []) ++
         (if fs (dir ++ "/" ++ p) then
           [(dir ++ "/" ++ p, "users/" ++ toString u.id ++ "_" ++ "S" ++ ".jpg")] else []),
         none⟩) ∧
    (∀ rows : List URow,
      (∀ u ∈ rows, truthy u.image = true → u.preview.isSome = true) →
      (import_users dir fs rows store).err = none) := by
  refine ⟨?_, ?_, ?_⟩
  · intro u rest ht hp
    cases hi : u.image with
    | none => rw [hi] at ht; simp [truthy] at ht
    | some f =>
      have ht2 : truthy (some f) = true := hi ▸ ht
      by_cases hM : fs (dir ++ "/" ++ f) <;>
        simp [import_users, processURows, processURow, processUserAsset,
          hi, hp, ht2, hM]
  · intro u p ht hp
    cases hi : u.image with
    | none => rw [hi] at ht; simp [truthy] at ht
    | some f =>
      have ht2 : truthy (some f) = true := hi ▸ ht
      by_cases hM : fs (dir ++ "/" ++ f) <;>
        by_cases hS : fs (dir ++ "/" ++ p) <;>
          simp [import_users, processURows, processURow, processUserAsset,
            insertUserImage, hi, hp, ht2, hM, hS]
  · intro rows h
    obtain ⟨st2, h2⟩ := processURows_ok dir fs rows (store, []) h
    obtain ⟨m, tk⟩ := st2
    simp [import_users, h2]

/-- Witness for C10: with only `/i/a.jpg` on disk, the truthy-image
null-preview row `w10a` fails the run; the well-formed row `w10b` yields
one task and one `user_images` row for the present image and none for
the missing preview, and its run succeeds. -/
theorem import_users_asset_semantics_witness :
    (truthy w10a.image = true ∧ w10a.preview = none ∧
      (import_users "/i" w10fs [w10a] ⟨[], []⟩).err = some .typeError) ∧
    (truthy w10b.image = true ∧ w10b.preview = some "p.jpg" ∧
      import_users "/i" w10fs [w10b] ⟨[], []⟩ =
        ⟨⟨[⟨2, "o", 0, "N"⟩], [⟨2, "M", "users/2_M.jpg"⟩]⟩,
         [("/i/a.jpg", "users/2_M.jpg")], none⟩) ∧
    ((∀ u ∈ [w10b], truthy u.image = true → u.preview.isSome = true) ∧
      (import_users "/i" w10fs [w10b] ⟨[], []⟩).err = none) :=
  ⟨⟨rfl, rfl,
    (import_users_asset_semantics "/i" w10fs ⟨[], []⟩).1 w10a [] rfl rfl⟩,
   ⟨rfl, rfl, by
      have h := (import_users_asset_semantics "/i" w10fs ⟨[], []⟩).2.1 w10b
        "p.jpg" rfl rfl
      rw [h]
      decide⟩,
   ⟨by decide,
    (import_users_asset_semantics "/i" w10fs ⟨[], []⟩).2.2 [w10b] (by decide)⟩⟩

end ThousandsData
